import Mathlib

/-!
Verification of the Rayfreshh portfolio site scripts.

Shallow embedding of the JavaScript sources (build.js, script.js,
js/modules/main.mjs, js/modules/skills.mjs, js/accessibility.js, the
education manager, the tooltip manager and the Utils helpers) as pure
Lean functions, together with theorems about the behaviour these
functions exhibit.  DOM reads (getBoundingClientRect, querySelector,
window.innerWidth and so on) are passed in as explicit inputs; DOM
writes become fields of explicit state records; a thrown JavaScript
error becomes Except.error; setTimeout handles become explicit absolute
deadlines.
-/

namespace Portfolio

/-! ## build.js : PortfolioBuildTool -/

/-- Outcome of one run of `node build.js`, as observable from outside:
`exitCode = none` means `process.exit` was never called, `loggedError`
is the error passed to `console.error` in the catch clause, if any. -/
structure BuildOutcome where
  exitCode : Option Nat
  loggedError : Option String
deriving DecidableEq, Repr

/-- The seven awaited steps of PortfolioBuildTool.build.  Each field is
the result the corresponding awaited call would produce if reached
(`Except.error e` models that the step throws `e`). -/
structure StepRun where
  createBuildDirectory : Except String Unit
  optimizeCSS : Except String Unit
  optimizeJS : Except String Unit
  optimizeHTML : Except String Unit
  copyAssets : Except String Unit
  generateServiceWorker : Except String Unit
  generateManifest : Except String Unit

/-- The try-block of PortfolioBuildTool.build: the seven steps are
awaited in order, and the first thrown error aborts the sequence. -/
def buildTry (r : StepRun) : Except String Unit := do
  r.createBuildDirectory
  r.optimizeCSS
  r.optimizeJS
  r.optimizeHTML
  r.copyAssets
  r.generateServiceWorker
  r.generateManifest

/-- PortfolioBuildTool.build: on success it only logs; the catch clause
logs the error with console.error and calls process.exit(1). -/
def build (r : StepRun) : BuildOutcome :=
  match buildTry r with
  | .ok _ => { exitCode := none, loggedError := none }
  | .error e => { exitCode := some 1, loggedError := some e }

/-- Concrete build run in which every step succeeds. -/
def goodRun : StepRun :=
  ⟨.ok (), .ok (), .ok (), .ok (), .ok (), .ok (), .ok ()⟩

/-- Concrete build run in which the optimizeCSS step throws. -/
def badRun : StepRun :=
  ⟨.ok (), .error "ENOENT", .ok (), .ok (), .ok (), .ok (), .ok ()⟩

/-! ## build.js : where the build writes -/

/-- A filesystem path, as the list of its segments relative to the
source directory; path.join appends segments. -/
abbrev FsPath := List String

/-- `this.buildDir = path.join(__dirname, 'dist')`. -/
def buildDirPath : FsPath := ["dist"]

/-- Destination of the combined minified CSS. -/
def cssOutPath : FsPath := buildDirPath ++ ["css", "main.min.css"]

/-- Destination of the combined minified JavaScript. -/
def jsOutPath : FsPath := buildDirPath ++ ["js", "main.min.js"]

/-- Destination of the optimized index.html. -/
def htmlOutPath : FsPath := buildDirPath ++ ["index.html"]

/-- Destination of the generated service worker. -/
def swOutPath : FsPath := buildDirPath ++ ["sw.js"]

/-- Destination of the generated web app manifest. -/
def manifestOutPath : FsPath := buildDirPath ++ ["manifest.json"]

/-- Destination of the copied bio.html. -/
def bioOutPath : FsPath := buildDirPath ++ ["bio.html"]

/-- The directories created (and, for dist itself, first removed) by
createBuildDirectory. -/
def createdDirs : List FsPath :=
  [buildDirPath, buildDirPath ++ ["css"], buildDirPath ++ ["js"],
   buildDirPath ++ ["assets"]]

/-- Destination paths of every file write a full run of node build.js
performs: the combined CSS and JS, the optimized index.html, one copy
per entry of fs.readdir(assets) (readdir returns bare entry names, each
a single segment), bio.html when present, sw.js and manifest.json. -/
def buildWritePaths (assetEntries : List String) (bioPresent : Bool) :
    List FsPath :=
  [cssOutPath, jsOutPath, htmlOutPath] ++
  assetEntries.map (fun f => buildDirPath ++ ["assets", f]) ++
  (if bioPresent then [bioOutPath] else []) ++
  [swOutPath, manifestOutPath]

/-- A path lies inside the dist/ build directory. -/
def underDist (p : FsPath) : Bool := p.head? = some "dist"

/-! ## script.js : Konami-code easter egg -/

/-- Page state touched by the easter-egg handler: the inline animation
on document.body and the list of notifications shown so far. -/
structure PageState where
  bodyAnimation : Option String
  notifications : List String
deriving DecidableEq, Repr

/-- The konamiCode array of the keydown handler in script.js. -/
def konamiCode : List String :=
  ["ArrowUp", "ArrowUp", "ArrowDown", "ArrowDown", "ArrowLeft",
   "ArrowRight", "ArrowLeft", "ArrowRight", "KeyB", "KeyA"]

/-- The keydown easter-egg handler of script.js.  `konamiIndex` is
declared with `let` inside the handler, so it is a fresh local set to 0
on every event; on a match it is incremented and compared with the
length of the code (10) before party mode would be activated. -/
def konamiKeydown (st : PageState) (code : String) : PageState :=
  let konamiIndex : Nat := 0
  if code = konamiCode.getD konamiIndex "" then
    let konamiIndex := konamiIndex + 1
    if konamiIndex = konamiCode.length then
      { st with
          bodyAnimation := some "rainbow 2s infinite",
          notifications := st.notifications ++ ["🎉 Party Mode Activated! 🎉"] }
    else st
  else st

/-! ## Utils.array.chunk (utils helper file) -/

/-- The loop body of Utils.array.chunk:
`for (let i = 0; i < array.length; i += size) chunks.push(array.slice(i, i + size))`.
`array.slice(i, i + size)` is `(array.drop i).take size`.  The extra
`fuel` argument bounds the number of loop iterations; for `size > 0`
the loop runs at most `array.length` times, so a fuel of
`array.length + 1` is never exhausted (for `size = 0` the JavaScript
loop would not terminate on a non-empty array). -/
def chunkGo (array : List α) (size : Nat) : Nat → Nat → List (List α)
  | _, 0 => []
  | i, fuel + 1 =>
    if i < array.length then
      ((array.drop i).take size) :: chunkGo array size (i + size) fuel
    else []

/-- Utils.array.chunk: chunks collected by the loop, started at i = 0. -/
def chunk (array : List α) (size : Nat) : List (List α) :=
  chunkGo array size 0 (array.length + 1)

/-- Utils.array.chunk as a call on the caller's array: the function only
reads the array (slice copies, push writes to the fresh `chunks`), so
the array after the call is returned unchanged alongside the result. -/
def chunkCall (array : List α) (size : Nat) : List (List α) × List α :=
  (chunk array size, array)

/-! ## js/modules/main.mjs : PortfolioApp module composition -/

/-- Environment facts read by the condition closures of the moduleConfigs
array in PortfolioApp.initializeModules. -/
structure ModuleEnv where
  hasIntersectionObserver : Bool
  animationsEnabled : Bool
  prefersReducedMotion : Bool
  skillControlsPresent : Bool
  educationRowsPresent : Bool
  isMobile : Bool
  hasTouch : Bool
deriving DecidableEq

/-- One entry of the moduleConfigs array: name, priority and condition. -/
structure ModuleConfig where
  name : String
  priority : Nat
  condition : ModuleEnv → Bool

/-- The moduleConfigs array of PortfolioApp.initializeModules, in its
declaration order. -/
def moduleConfigs : List ModuleConfig :=
  [⟨"accessibility", 1, fun _ => true⟩,
   ⟨"animations", 2, fun e => e.hasIntersectionObserver && e.animationsEnabled⟩,
   ⟨"ai-showcase", 2, fun e => e.animationsEnabled && !e.prefersReducedMotion⟩,
   ⟨"skills", 3, fun e => e.skillControlsPresent⟩,
   ⟨"education", 3, fun e => e.educationRowsPresent⟩,
   ⟨"tooltips", 4, fun _ => true⟩,
   ⟨"mobile", 2, fun e => e.isMobile || e.hasTouch⟩]

/-- Stable insertion of x into an already sorted list: x goes before the
first element whose priority is not smaller, so entries with equal
priority keep their original relative order. -/
def insertByPriority (x : ModuleConfig) : List ModuleConfig → List ModuleConfig
  | [] => [x]
  | y :: ys =>
    if x.priority ≤ y.priority then x :: y :: ys else y :: insertByPriority x ys

/-- Stable insertion sort ascending by priority. -/
def sortByPriority : List ModuleConfig → List ModuleConfig
  | [] => []
  | x :: xs => insertByPriority x (sortByPriority xs)

/-- `moduleConfigs.sort((a, b) => (a.priority || 999) - (b.priority || 999))`:
every priority in the array is non-zero, so the comparator orders
ascending by priority; Array.prototype.sort is required to be stable, and
a stable insertion sort is its model. -/
def sortedModuleConfigs : List ModuleConfig :=
  sortByPriority moduleConfigs

/-- The sequence of module names whose init() is awaited by the for-loop of
initializeModules, in invocation order: the priority-sorted configs whose
condition holds. -/
def initCallOrder (env : ModuleEnv) : List String :=
  (sortedModuleConfigs.filter (fun c => c.condition env)).map (fun c => c.name)

/-- A list of priorities is in ascending order. -/
def nondecreasing : List Nat → Bool
  | [] => true
  | [_] => true
  | p :: q :: rest => decide (p ≤ q) && nondecreasing (q :: rest)

/-! ## init() guarded by an initialized boolean -/

/-- DOM facts read by SkillsManager.init (js/modules/skills.mjs). -/
structure SkillsDoc where
  skillControls : Nat
  languageControls : Nat
  skillBars : Nat
  languageBars : Nat
  progressBars : Nat
  hasIntersectionObserver : Bool
deriving DecidableEq

/-- Mutable state of a SkillsManager instance, with the DOM side effects of
its setup helpers recorded as counters (listener registrations and observed
progress bars). -/
structure SkillsState where
  initialized : Bool
  skillControls : Nat
  languageControls : Nat
  listeners : Nat
  observed : Nat
deriving DecidableEq

/-- SkillsManager.init: returns immediately when initialized is already
true; otherwise stores the control NodeLists, registers a click and a
keydown listener per control and per bar, observes the progress bars when
IntersectionObserver exists, and finally sets initialized. -/
def skillsInit (doc : SkillsDoc) (s : SkillsState) : SkillsState :=
  if s.initialized then s
  else
    { initialized := true
      skillControls := doc.skillControls
      languageControls := doc.languageControls
      listeners := s.listeners + 2 * doc.skillControls + 2 * doc.languageControls +
        2 * doc.skillBars + 2 * doc.languageBars
      observed := if doc.hasIntersectionObserver then s.observed + doc.progressBars
        else s.observed }

/-- Mutable state of the AccessibilityManager singleton
(js/accessibility.js), with its eight setup calls recorded as a counter
and the live-region announcer as a flag. -/
structure A11yState where
  initialized : Bool
  announcerCreated : Bool
  setupSteps : Nat
deriving DecidableEq

/-- AccessibilityManager.init: returns immediately when initialized is
already true; otherwise creates the screen-reader announcer, runs the seven
remaining setup and audit calls, and sets initialized. -/
def accessibilityInit (s : A11yState) : A11yState :=
  if s.initialized then s
  else { initialized := true, announcerCreated := true, setupSteps := s.setupSteps + 7 }

/-- The config object passed to PortfolioApp.init; a none field models a key
absent from the object literal, left to the default by the spread merge. -/
structure AppConfig where
  debug : Option Bool
  performance : Option Bool
  lazyLoading : Option Bool
  animations : Option Bool
deriving DecidableEq

/-- The resolved this.config of a PortfolioApp. -/
structure AppConfigState where
  debug : Bool
  performance : Bool
  lazyLoading : Bool
  animations : Bool
deriving DecidableEq

/-- `this.config = { ...this.config, ...config }`. -/
def mergeConfig (base : AppConfigState) (c : AppConfig) : AppConfigState :=
  { debug := c.debug.getD base.debug
    performance := c.performance.getD base.performance
    lazyLoading := c.lazyLoading.getD base.lazyLoading
    animations := c.animations.getD base.animations }

/-- Mutable state of the PortfolioApp singleton. -/
structure AppState where
  initialized : Bool
  isMobile : Bool
  config : AppConfigState
  modules : List String
  globalEventsSetup : Bool
deriving DecidableEq

/-- Inputs of one PortfolioApp.init call: the module environment and an
error thrown inside the try-block, if any (module init failures are caught
inside initializeModules and do not abort init). -/
structure AppEnv where
  moduleEnv : ModuleEnv
  failure : Option String

/-- PortfolioApp.init: returns (thrown error, state after the call).
The guard returns at once when initialized is true.  this.config is merged
before the try-block; inside it, detectDeviceCapabilities sets isMobile,
initializeModules registers the eligible modules in initCallOrder, the
performance and lazy-loading modules are added per config, global events
are wired, and initialized is set to true only at the end of the
try-block, so a thrown error leaves it false and is rethrown. -/
def appInit (env : AppEnv) (cfg : AppConfig) (s : AppState) :
    Option String × AppState :=
  if s.initialized then (none, s)
  else
    let config := mergeConfig s.config cfg
    let s1 := { s with config := config }
    match env.failure with
    | some e => (some e, s1)
    | none =>
      let s2 := { s1 with
        isMobile := env.moduleEnv.isMobile
        modules := initCallOrder env.moduleEnv ++
          (if config.performance then ["performance"] else []) ++
          (if config.lazyLoading then ["lazyLoader"] else [])
        globalEventsSetup := true }
      (none, { s2 with initialized := true })

/-- Sequential composition of two calls on the same instance: the second
runs only when the first did not throw. -/
def callSeq (f g : AppState → Option String × AppState) (s : AppState) :
    Option String × AppState :=
  match f s with
  | (some e, s1) => (some e, s1)
  | (none, s1) => g s1

/-- A desktop module environment with no thrown error. -/
def envDesktop : AppEnv := ⟨⟨true, true, false, true, true, false, false⟩, none⟩

/-- An init() call with an empty config object. -/
def cfgEmpty : AppConfig := ⟨none, none, none, none⟩

/-- An already-initialized PortfolioApp state. -/
def appStateDone : AppState := ⟨true, false, ⟨false, true, true, true⟩, [], true⟩

/-- A document with no skill or language elements. -/
def skillsDocEmpty : SkillsDoc := ⟨0, 0, 0, 0, 0, false⟩

/-- An already-initialized SkillsManager state. -/
def skillsStateDone : SkillsState := ⟨true, 0, 0, 0, 0⟩

/-- An already-initialized AccessibilityManager state. -/
def a11yStateDone : A11yState := ⟨true, true, 7⟩

/-! ## Tooltip manager : positioning and viewport clamping -/

/-- The fields of a DOMRect the tooltip code reads. -/
structure DomRect where
  left : Int
  top : Int
  right : Int
  bottom : Int
  width : Int
  height : Int
deriving DecidableEq, Repr

/-- The CSS position property values the tooltip code writes. -/
inductive CssPos
  | unset
  | fixed
  | absolute
deriving DecidableEq, Repr

/-- A CSS length as written by the tooltip code: a pixel value such as
`(rect.top - 35) + 'px'` or a percentage such as `'50%'`. -/
inductive CssLen
  | unset
  | px (n : Int)
  | pct (n : Int)
deriving DecidableEq, Repr

/-- The CSS transform values the tooltip code writes: `'translateX(-50%)'`
or `'none'`. -/
inductive CssTransform
  | unset
  | translateXNegHalf
  | noTransform
deriving DecidableEq, Repr

/-- The inline style fields of a tooltip element that positioning touches. -/
structure TooltipStyle where
  position : CssPos
  left : CssLen
  top : CssLen
  transform : CssTransform
deriving DecidableEq, Repr

/-- TooltipManager.adjustTooltipPosition(tooltip, elementRect): reads the
tooltip bounding rect and window.innerWidth / window.innerHeight
(viewportHeight is declared but never used by the source), clamps
horizontally — left edge first, else right edge — and, when the box
extends above the viewport, repositions below the element
(elementRect.bottom + 10 for control tooltips, 30px for bar tooltips).
The rect the browser reports for the tooltip is the tooltipRect input;
isControl models classList.contains('control-tooltip'). -/
def adjustTooltipPosition (isControl : Bool) (tooltipRect elementRect : DomRect)
    (innerWidth _innerHeight : Int) (s : TooltipStyle) : TooltipStyle :=
  let s :=
    if tooltipRect.left < 0 then
      { s with left := .px 10, transform := .noTransform }
    else if tooltipRect.right > innerWidth then
      { s with left := .px (innerWidth - tooltipRect.width - 10),
               transform := .noTransform }
    else s
  if tooltipRect.top < 0 then
    if isControl then { s with top := .px (elementRect.bottom + 10) }
    else { s with top := .px 30 }
  else s

/-- TooltipManager.positionTooltip(tooltip, element): control tooltips get
fixed positioning centred above the element, bar tooltips get absolute
positioning at 50% / -30px, then adjustTooltipPosition performs the
boundary checks.  rect is element.getBoundingClientRect(); tooltipRect is
the rect the browser reports for the tooltip at the boundary check. -/
def positionTooltip (isControl : Bool) (rect tooltipRect : DomRect)
    (innerWidth innerHeight : Int) (s : TooltipStyle) : TooltipStyle :=
  let s :=
    if isControl then
      { s with position := .fixed, left := .px (rect.left + rect.width / 2),
               top := .px (rect.top - 35), transform := .translateXNegHalf }
    else
      { s with position := .absolute, left := .pct 50, top := .px (-30),
               transform := .translateXNegHalf }
  adjustTooltipPosition isControl tooltipRect rect innerWidth innerHeight s

/-- A tooltip box wider than the viewport, overflowing both edges. -/
def wideTooltipRect : DomRect := ⟨-5, 5, 1995, 25, 2000, 20⟩

/-- An ordinary element rect. -/
def someElementRect : DomRect := ⟨100, 40, 300, 60, 200, 20⟩

/-- A tooltip style before any positioning. -/
def baseStyle : TooltipStyle := ⟨.unset, .unset, .unset, .unset⟩

/-! ## Missing-selector no-ops (skills.mjs and the tooltip manager) -/

/-- A tooltip element: its control-tooltip class, inline style, opacity,
visibility and tooltip-show class. -/
structure TooltipNode where
  controlClass : Bool
  style : TooltipStyle
  opacity : String
  visibility : String
  showClass : Bool
deriving DecidableEq, Repr

/-- A control (or bar) element: its bounding rect, the result of
querySelector('.control-tooltip') on it, and the inline styles
showSkillValue animates. -/
structure ControlNode where
  rect : DomRect
  tooltip : Option TooltipNode
  transformStyle : String
  colorStyle : String
deriving DecidableEq, Repr

/-- SkillsManager.showSkillValue(element, value): a querySelector miss is
an early return before any style write; on a hit the tooltip is fixed,
centred above the control, made visible, and the control is animated
(value itself is unused by the body).  The Bool records whether the 800 ms
reset timeout and the haptic feedback were scheduled. -/
def showSkillValue (el : ControlNode) : ControlNode × Bool :=
  match el.tooltip with
  | none => (el, false)
  | some t =>
    let t := { t with
      style := { t.style with
        position := .fixed
        left := .px (el.rect.left + el.rect.width / 2)
        top := .px (el.rect.top - 35)
        transform := .translateXNegHalf }
      opacity := "1"
      visibility := "visible" }
    ({ el with
        tooltip := some t
        transformStyle := "scale(1.2)"
        colorStyle := "var(--primary-color, #f4d03f)" }, true)

/-- TooltipManager.showTooltip(tooltip, element):
`if (!tooltip || !element) return;` then positionTooltip and the
opacity / visibility / tooltip-show writes. -/
def showTooltip (tooltip : Option TooltipNode) (element : Option ControlNode)
    (tooltipRect : DomRect) (innerWidth innerHeight : Int) :
    Option TooltipNode × Option ControlNode :=
  match tooltip, element with
  | some t, some el =>
    let t := { t with
      style := positionTooltip t.controlClass el.rect tooltipRect
        innerWidth innerHeight t.style }
    (some { t with opacity := "1", visibility := "visible", showClass := true },
     some el)
  | t, el => (t, el)

/-- TooltipManager.hideTooltip(tooltip): `if (!tooltip) return;` then the
opacity / visibility writes and the tooltip-show class removal. -/
def hideTooltip (tooltip : Option TooltipNode) : Option TooltipNode :=
  match tooltip with
  | none => none
  | some t => some { t with opacity := "0", visibility := "hidden", showClass := false }

/-- A control element with no .control-tooltip child. -/
def bareControl : ControlNode := ⟨someElementRect, none, "", ""⟩

/-! ## Education manager : document-preview hover timer -/

/-- The kind of a mouse event on an education row. -/
inductive HoverKind
  | enter
  | leave
deriving DecidableEq, Repr

/-- A time-stamped mouse event (times in milliseconds). -/
structure HoverEvent where
  time : Nat
  kind : HoverKind
deriving DecidableEq, Repr

/-- State of the document preview machinery: this.currentTimeout as the
absolute deadline of the pending 500 ms timer, the preview iframe src and
whether the overlay has the show class. -/
structure PreviewState where
  pending : Option Nat
  frameSrc : Option String
  overlayShown : Bool
deriving DecidableEq, Repr

/-- The initial state: no pending timer, empty iframe, hidden overlay. -/
def previewClosed : PreviewState := ⟨none, none, false⟩

/-- Deliver the pending timer if its deadline has passed at time now:
the callback showDocumentPreview(title, fileUrl) sets the iframe src to
the file URL and shows the overlay, and the handle is spent. -/
def fireTimer (fileUrl : String) (s : PreviewState) (now : Nat) : PreviewState :=
  match s.pending with
  | some d =>
    if d ≤ now then { pending := none, frameSrc := some fileUrl, overlayShown := true }
    else s
  | none => s

/-- One mouse event on a desktop education row carrying data-file
(EducationManager.setupDocumentRow, the branch for
window.innerWidth > 768): mouseenter calls this.clearTimeout() and arms
a new 500 ms timer; mouseleave calls this.clearTimeout(), which clears
the pending handle.  Any timer whose deadline has already passed is
delivered first. -/
def hoverStep (fileUrl : String) (s : PreviewState) (e : HoverEvent) : PreviewState :=
  let s := fireTimer fileUrl s e.time
  match e.kind with
  | .enter => { s with pending := some (e.time + 500) }
  | .leave => { s with pending := none }

/-- Run a trace of mouse events and observe the state at time endTime,
delivering a timer that fires before the observation. -/
def runHover (fileUrl : String) (s : PreviewState) (trace : List HoverEvent)
    (endTime : Nat) : PreviewState :=
  fireTimer fileUrl (trace.foldl (hoverStep fileUrl) s) endTime

/-! ## testFunctionality (script.js variant) -/

/-- A DOM link element: its href and whether it carries a download
attribute. -/
structure LinkNode where
  href : String
  hasDownloadAttr : Bool
deriving DecidableEq, Repr

/-- The page elements testFunctionality queries; a none field models a
querySelector miss. -/
structure TestPage where
  profileImagePresent : Bool
  experienceCardPresent : Bool
  githubLink : Option LinkNode
  cvDownloadLink : Option LinkNode
deriving DecidableEq, Repr

/-- The literal GitHub profile URL the check compares the link against. -/
def githubProfileUrl : String := "https://github.com/Rayfreshh"

/-- Modelled from the spec: the testFunctionality() function of one
script.js variant, which is not among the source files under src/.  Per
the spec it checks that elements such as .profile-image and
.experience-card exist, that the GitHub link equals a literal URL, and
that a CV download link has a download attribute. -/
def testFunctionality (page : TestPage) : Bool :=
  page.profileImagePresent &&
  page.experienceCardPresent &&
  (match page.githubLink with
   | some l => l.href == githubProfileUrl
   | none => false) &&
  (match page.cvDownloadLink with
   | some l => l.hasDownloadAttr
   | none => false)

/-! ## Theorems -/

/-- The try-block succeeds exactly when every one of the seven steps
succeeds. -/
theorem buildTry_ok_iff (r : StepRun) :
    buildTry r = .ok () ↔
      (r.createBuildDirectory = .ok () ∧ r.optimizeCSS = .ok () ∧
       r.optimizeJS = .ok () ∧ r.optimizeHTML = .ok () ∧
       r.copyAssets = .ok () ∧ r.generateServiceWorker = .ok () ∧
       r.generateManifest = .ok ()) := by
  obtain ⟨c, s1, s2, s3, s4, s5, s6⟩ := r
  cases c <;> cases s1 <;> cases s2 <;> cases s3 <;> cases s4 <;> cases s5 <;> cases s6 <;>
    simp [buildTry, Bind.bind, Except.bind]

/-- Every run of the try-block either succeeds or throws some error. -/
theorem buildTry_cases (r : StepRun) :
    buildTry r = .ok () ∨ ∃ e, buildTry r = .error e := by
  cases h : buildTry r with
  | ok u => cases u; exact Or.inl rfl
  | error e => exact Or.inr ⟨e, rfl⟩

/-- A single keydown event never changes the page state: the local
counter reaches at most 1, and 1 ≠ 10. -/
theorem konamiKeydown_id (st : PageState) (code : String) :
    konamiKeydown st code = st := by
  unfold konamiKeydown
  by_cases h : code = konamiCode.getD 0 "" <;> simp [h, konamiCode]

theorem chunkGo_ne_nil_imp {array : List α} {size i fuel : Nat}
    (h : chunkGo array size i fuel ≠ []) : i < array.length := by
  cases fuel with
  | zero => simp [chunkGo] at h
  | succ n =>
    by_cases hi : i < array.length
    · exact hi
    · simp [chunkGo, hi] at h

theorem chunkGo_flatten (array : List α) (size : Nat) (hs : 0 < size) :
    ∀ fuel i, array.length - i < fuel →
      (chunkGo array size i fuel).flatten = array.drop i := by
  intro fuel
  induction fuel with
  | zero => intro i h; omega
  | succ n ih =>
    intro i h
    by_cases hi : i < array.length
    · rw [chunkGo]
      simp only [hi, if_true, List.flatten_cons]
      rw [ih (i + size) (by omega)]
      have hdd : array.drop (i + size) = (array.drop i).drop size := by
        rw [List.drop_drop]
      rw [hdd]
      exact List.take_append_drop size (array.drop i)
    · rw [chunkGo]
      simp [hi, List.drop_eq_nil_of_le (Nat.le_of_not_lt hi)]

theorem chunkGo_dropLast_length (array : List α) (size : Nat) :
    ∀ fuel i, ∀ c ∈ (chunkGo array size i fuel).dropLast, c.length = size := by
  intro fuel
  induction fuel with
  | zero => intro i c hc; simp [chunkGo] at hc
  | succ n ih =>
    intro i c hc
    by_cases hi : i < array.length
    · rw [chunkGo] at hc
      simp only [hi, if_true] at hc
      cases hr : chunkGo array size (i + size) n with
      | nil => rw [hr] at hc; simp at hc
      | cons y t =>
        rw [hr] at hc
        rw [List.dropLast_cons₂] at hc
        rcases List.mem_cons.mp hc with hxc | htail
        · subst hxc
          have hlt : i + size < array.length :=
            chunkGo_ne_nil_imp (by rw [hr]; simp)
          simp only [List.length_take, List.length_drop]
          omega
        · exact ih (i + size) c (by rw [hr]; exact htail)
    · rw [chunkGo] at hc
      simp [hi] at hc

/-- Counterexample to claim C2: initializeModules does impose an ordering
constraint between eligible modules.  In the environment where every
condition input is true except prefersReducedMotion, the init() calls happen in the definite order
below — the priority sort has moved mobile (priority 2) ahead of skills
and education (priority 3), so the invocation order is not the unordered
declaration list, and accessibility.init() is awaited strictly before
tooltips.init(). -/
theorem initCallOrder_fixed_pair :
    initCallOrder ⟨true, true, false, true, true, true, true⟩ =
      ["accessibility", "animations", "ai-showcase", "mobile", "skills",
       "education", "tooltips"] ∧
    sortedModuleConfigs.map (fun m => m.name) ≠
      moduleConfigs.map (fun m => m.name) ∧
    (initCallOrder ⟨true, true, false, true, true, true, true⟩).indexOf "accessibility" <
      (initCallOrder ⟨true, true, false, true, true, true, true⟩).indexOf "tooltips" := by
  decide

/-- Claim C2 (amended): initializeModules composes the modules as a
sequential, ordered list of init() calls: eligible modules are awaited in
ascending priority order, the stable sort of the declared configs, with
accessibility (priority 1) always first and tooltips (priority 4) always
last. -/
theorem initCallOrder_priority_order :
    ∀ a b c d e f g : Bool,
      nondecreasing
        ((sortedModuleConfigs.filter
          (fun m => m.condition ⟨a, b, c, d, e, f, g⟩)).map (fun m => m.priority)) = true ∧
      (initCallOrder ⟨a, b, c, d, e, f, g⟩).head? = some "accessibility" ∧
      (initCallOrder ⟨a, b, c, d, e, f, g⟩).getLast? = some "tooltips" := by decide

/-- Claim C5: for PortfolioApp, SkillsManager and AccessibilityManager,
whose init() is guarded by an initialized boolean, a second init() while
initialized is true returns immediately and changes no state, and init()
followed by init() is observationally equal to a single init(). -/
theorem init_idempotent :
    (∀ (env : AppEnv) (cfg : AppConfig) (s : AppState),
      s.initialized = true → appInit env cfg s = (none, s)) ∧
    (∀ (env : AppEnv) (cfg : AppConfig) (s : AppState),
      callSeq (appInit env cfg) (appInit env cfg) s = appInit env cfg s) ∧
    (∀ (doc : SkillsDoc) (s : SkillsState),
      s.initialized = true → skillsInit doc s = s) ∧
    (∀ (doc : SkillsDoc) (s : SkillsState),
      skillsInit doc (skillsInit doc s) = skillsInit doc s) ∧
    (∀ s : A11yState, s.initialized = true → accessibilityInit s = s) ∧
    (∀ s : A11yState,
      accessibilityInit (accessibilityInit s) = accessibilityInit s) := by
  refine ⟨?_, ?_, ?_, ?_, ?_, ?_⟩
  · intro env cfg s h
    simp [appInit, h]
  · intro env cfg s
    by_cases h : s.initialized
    · simp [callSeq, appInit, h]
    · cases hf : env.failure with
      | some e => simp [callSeq, appInit, h, hf]
      | none => simp [callSeq, appInit, h, hf]
  · intro doc s h
    simp [skillsInit, h]
  · intro doc s
    by_cases h : s.initialized <;> simp [skillsInit, h]
  · intro s h
    simp [accessibilityInit, h]
  · intro s
    by_cases h : s.initialized <;> simp [accessibilityInit, h]

/-- Witness for C5 at concrete already-initialized states. -/
theorem init_idempotent_witness :
    appStateDone.initialized = true ∧
    appInit envDesktop cfgEmpty appStateDone = (none, appStateDone) ∧
    skillsInit skillsDocEmpty skillsStateDone = skillsStateDone ∧
    accessibilityInit a11yStateDone = a11yStateDone :=
  ⟨rfl,
   init_idempotent.1 envDesktop cfgEmpty appStateDone rfl,
   init_idempotent.2.2.1 skillsDocEmpty skillsStateDone rfl,
   init_idempotent.2.2.2.2.1 a11yStateDone rfl⟩

/-- Claim C1: if any step of PortfolioBuildTool.build (createBuildDirectory,
optimizeCSS, optimizeJS, optimizeHTML, copyAssets, generateServiceWorker,
generateManifest) throws an error, the script logs the error and exits the
process with status 1; for every run in which no step throws, the process is
not exited with a non-zero status. -/
theorem build_exits_one_on_error (r : StepRun) :
    ((∃ e, r.createBuildDirectory = .error e ∨ r.optimizeCSS = .error e ∨
        r.optimizeJS = .error e ∨ r.optimizeHTML = .error e ∨
        r.copyAssets = .error e ∨ r.generateServiceWorker = .error e ∨
        r.generateManifest = .error e) →
      ∃ e, build r = { exitCode := some 1, loggedError := some e }) ∧
    ((r.createBuildDirectory = .ok () ∧ r.optimizeCSS = .ok () ∧
      r.optimizeJS = .ok () ∧ r.optimizeHTML = .ok () ∧
      r.copyAssets = .ok () ∧ r.generateServiceWorker = .ok () ∧
      r.generateManifest = .ok ()) →
      build r = { exitCode := none, loggedError := none }) := by
  constructor
  · rintro ⟨e, he⟩
    rcases buildTry_cases r with hok | ⟨e', he'⟩
    · exfalso
      have hall := (buildTry_ok_iff r).mp hok
      obtain ⟨h1, h2, h3, h4, h5, h6, h7⟩ := hall
      rcases he with h | h | h | h | h | h | h <;> simp_all
    · exact ⟨e', by simp [build, he']⟩
  · intro hall
    have hok : buildTry r = .ok () := (buildTry_ok_iff r).mpr hall
    simp [build, hok]

/-- Witness for C1: a run whose optimizeCSS step throws exits with status 1,
and a run with no failing step does not exit. -/
theorem build_exits_one_on_error_witness :
    (∃ e, build badRun = { exitCode := some 1, loggedError := some e }) ∧
    build goodRun = { exitCode := none, loggedError := none } :=
  ⟨(build_exits_one_on_error badRun).1 ⟨"ENOENT", Or.inr (Or.inl rfl)⟩,
   (build_exits_one_on_error goodRun).2 ⟨rfl, rfl, rfl, rfl, rfl, rfl, rfl⟩⟩

/-- Claim C9: for every sequence of keydown events, the Konami-code handler in
script.js never activates party mode: konamiIndex is declared and reset to 0
inside the handler on every event, so it never reaches the code length of 10.
The handler is the identity on the page state, so a clean page keeps
bodyAnimation = none and an empty notification list. -/
theorem konami_never_activates (st : PageState) (codes : List String) :
    List.foldl konamiKeydown st codes = st ∧
    (List.foldl konamiKeydown ⟨none, []⟩ codes).bodyAnimation = none ∧
    (List.foldl konamiKeydown ⟨none, []⟩ codes).notifications = [] := by
  have key : ∀ (s : PageState) (l : List String), List.foldl konamiKeydown s l = s := by
    intro s l
    induction l generalizing s with
    | nil => rfl
    | cons c cs ih => rw [List.foldl_cons, konamiKeydown_id]; exact ih _
  exact ⟨key st codes, by rw [key], by rw [key]⟩

/-- Claim C10: for every array and every size greater than 0, concatenating
the chunks of Utils.array.chunk in order yields the original array, every
chunk except possibly the last has length exactly size, and the input array
is not mutated by the call. -/
theorem chunk_spec (array : List α) (size : Nat) (hs : 0 < size) :
    (chunk array size).flatten = array ∧
    (∀ c ∈ (chunk array size).dropLast, c.length = size) ∧
    (chunkCall array size).2 = array := by
  refine ⟨?_, ?_, rfl⟩
  · have h := chunkGo_flatten array size hs (array.length + 1) 0 (by omega)
    simpa [chunk] using h
  · intro c hc
    exact chunkGo_dropLast_length array size (array.length + 1) 0 c hc

/-- Witness for C10 at array [1, 2, 3, 4, 5] and size 2. -/
theorem chunk_spec_witness :
    0 < 2 ∧
    ((chunk [1, 2, 3, 4, 5] 2).flatten = [1, 2, 3, 4, 5] ∧
     (∀ c ∈ (chunk [1, 2, 3, 4, 5] 2).dropLast, c.length = 2) ∧
     (chunkCall [1, 2, 3, 4, 5] 2).2 = [1, 2, 3, 4, 5]) :=
  ⟨by decide, chunk_spec [1, 2, 3, 4, 5] 2 (by decide)⟩

/-- Counterexample to claim C3: for a tooltip box that overflows both
viewport edges (left = -5, right = 1995, width = 2000 at
innerWidth = 800), positionTooltip leaves left at 10px — the left-edge
branch wins, the right-edge check being an else-if — and not at
innerWidth - width - 10 = -1210px as the right-edge sentence of the
claim requires. -/
theorem positionTooltip_cex :
    wideTooltipRect.right > 800 ∧
    (positionTooltip false someElementRect wideTooltipRect 800 600 baseStyle).left
      = CssLen.px 10 ∧
    (positionTooltip false someElementRect wideTooltipRect 800 600 baseStyle).left
      ≠ CssLen.px (800 - wideTooltipRect.width - 10) := by decide

/-- Claim C3 (amended): after positionTooltip runs, the tooltip is clamped
to the viewport: if its box extends past the left edge (left < 0) its left
is set to 10px; if it extends past the right edge (right > innerWidth)
while not past the left edge its left is set to innerWidth minus the
tooltip width minus 10; if it extends above the top edge it is
repositioned below the element (elementRect.bottom + 10 for a control
tooltip, 30px for a bar tooltip). -/
theorem positionTooltip_clamps (isControl : Bool) (er tr : DomRect)
    (vw vh : Int) (s : TooltipStyle) :
    (tr.left < 0 →
      (positionTooltip isControl er tr vw vh s).left = CssLen.px 10 ∧
      (positionTooltip isControl er tr vw vh s).transform = CssTransform.noTransform) ∧
    (0 ≤ tr.left → tr.right > vw →
      (positionTooltip isControl er tr vw vh s).left = CssLen.px (vw - tr.width - 10) ∧
      (positionTooltip isControl er tr vw vh s).transform = CssTransform.noTransform) ∧
    (tr.top < 0 →
      (positionTooltip isControl er tr vw vh s).top =
        (if isControl then CssLen.px (er.bottom + 10) else CssLen.px 30)) := by
  unfold positionTooltip adjustTooltipPosition
  refine ⟨fun h1 => ?_, fun h0 h2 => ?_, fun h3 => ?_⟩ <;>
    cases isControl <;> split_ifs <;> simp_all <;> omega

/-- Witness for C3 (amended): a box past the left edge is clamped to 10px,
and a box past only the right edge is clamped to innerWidth - width - 10. -/
theorem positionTooltip_clamps_witness :
    (positionTooltip true someElementRect ⟨-5, -5, 60, 15, 65, 20⟩ 800 600 baseStyle).left
      = CssLen.px 10 ∧
    (positionTooltip false someElementRect ⟨700, 10, 820, 30, 120, 20⟩ 800 600 baseStyle).left
      = CssLen.px (800 - 120 - 10) :=
  ⟨((positionTooltip_clamps true someElementRect ⟨-5, -5, 60, 15, 65, 20⟩
      800 600 baseStyle).1 (by decide)).1,
   ((positionTooltip_clamps false someElementRect ⟨700, 10, 820, 30, 120, 20⟩
      800 600 baseStyle).2.1 (by decide) (by decide)).1⟩

/-- fireTimer when no timer is pending. -/
theorem fireTimer_none (url : String) (s : PreviewState) (now : Nat)
    (h : s.pending = none) : fireTimer url s now = s := by
  unfold fireTimer; rw [h]

/-- fireTimer when a timer with deadline d is pending. -/
theorem fireTimer_some (url : String) (s : PreviewState) (now d : Nat)
    (h : s.pending = some d) :
    fireTimer url s now =
      if d ≤ now then ⟨none, some url, true⟩ else s := by
  unfold fireTimer; rw [h]

/-- Running a hover trace from a state, the overlay can only be shown if it
already was, if an already armed timer could fire before the observation
time, or if the trace contains a mouseenter whose 500 ms deadline is
reached by the observation time. -/
theorem runHover_open_source (url : String) :
    ∀ (trace : List HoverEvent) (s : PreviewState) (T : Nat),
      (∀ e ∈ trace, e.time ≤ T) →
      (runHover url s trace T).overlayShown = true →
      s.overlayShown = true ∨ (∃ d, s.pending = some d ∧ d ≤ T) ∨
        (∃ t, HoverEvent.mk t HoverKind.enter ∈ trace ∧ t + 500 ≤ T) := by
  intro trace
  induction trace with
  | nil =>
    intro s T _ hopen
    unfold runHover at hopen
    simp only [List.foldl_nil] at hopen
    rcases hp : s.pending with _ | d
    · rw [fireTimer_none url s T hp] at hopen
      exact Or.inl hopen
    · rw [fireTimer_some url s T d hp] at hopen
      by_cases hd : d ≤ T
      · exact Or.inr (Or.inl ⟨d, rfl, hd⟩)
      · rw [if_neg hd] at hopen
        exact Or.inl hopen
  | cons e es ih =>
    obtain ⟨et, ek⟩ := e
    intro s T he hopen
    have hetT : et ≤ T := he ⟨et, ek⟩ (List.mem_cons_self _ _)
    have he' : ∀ x ∈ es, x.time ≤ T := fun x hx => he x (List.mem_cons_of_mem _ hx)
    have hrun : runHover url s (⟨et, ek⟩ :: es) T =
        runHover url (hoverStep url s ⟨et, ek⟩) es T := by
      unfold runHover; rw [List.foldl_cons]
    rw [hrun] at hopen
    rcases ih (hoverStep url s ⟨et, ek⟩) T he' hopen with h1 | ⟨d, hd, hdT⟩ | ⟨t, ht, htT⟩
    · have hov : (hoverStep url s ⟨et, ek⟩).overlayShown =
          (fireTimer url s et).overlayShown := by
        unfold hoverStep; cases ek <;> rfl
      rw [hov] at h1
      rcases hp : s.pending with _ | d
      · rw [fireTimer_none url s et hp] at h1
        exact Or.inl h1
      · rw [fireTimer_some url s et d hp] at h1
        by_cases hd : d ≤ et
        · exact Or.inr (Or.inl ⟨d, rfl, le_trans hd hetT⟩)
        · rw [if_neg hd] at h1
          exact Or.inl h1
    · cases ek with
      | enter =>
        have hpe : (hoverStep url s ⟨et, HoverKind.enter⟩).pending =
            some (et + 500) := rfl
        rw [hpe] at hd
        have hde : et + 500 = d := Option.some.inj hd
        exact Or.inr (Or.inr ⟨et, List.mem_cons_self _ _, by omega⟩)
      | leave =>
        have hpl : (hoverStep url s ⟨et, HoverKind.leave⟩).pending = none := rfl
        rw [hpl] at hd
        exact absurd hd (by simp)
    · exact Or.inr (Or.inr ⟨t, List.mem_cons_of_mem _ ht, htT⟩)

/-- Claim C4: on desktop, hovering an education row that has a data-file
attribute opens the document preview (iframe src set to the file URL,
overlay shown) only once the 500 ms timer fires, and a mouseleave before
the timer fires clears the pending timer so the preview is never opened
for that hover. -/
theorem preview_hover_timer (url : String) :
    (∀ (trace : List HoverEvent) (T : Nat),
      (∀ e ∈ trace, e.time ≤ T) →
      (runHover url previewClosed trace T).overlayShown = true →
      ∃ t, HoverEvent.mk t HoverKind.enter ∈ trace ∧ t + 500 ≤ T) ∧
    (∀ t T, runHover url previewClosed [⟨t, HoverKind.enter⟩] T =
      if t + 500 ≤ T then ⟨none, some url, true⟩
      else ⟨some (t + 500), none, false⟩) ∧
    (∀ t t' T, t' < t + 500 →
      runHover url previewClosed [⟨t, HoverKind.enter⟩, ⟨t', HoverKind.leave⟩] T =
        previewClosed) := by
  refine ⟨?_, ?_, ?_⟩
  · intro trace T he hopen
    rcases runHover_open_source url trace previewClosed T he hopen with h | ⟨d, hd, _⟩ | h
    · simp [previewClosed] at h
    · simp [previewClosed] at hd
    · exact h
  · intro t T
    unfold runHover
    simp only [List.foldl_cons, List.foldl_nil]
    unfold hoverStep fireTimer previewClosed
    by_cases h : t + 500 ≤ T <;> simp [h]
  · intro t t' T h
    unfold runHover
    simp only [List.foldl_cons, List.foldl_nil]
    unfold hoverStep fireTimer previewClosed
    simp [show ¬ t + 500 ≤ t' by omega]

/-- Witness for C4: a hover at time 0 observed at 777 ms has opened the
preview, so an enter with deadline within the window exists; a hover at
time 0 left at 100 ms never opens the preview. -/
theorem preview_hover_timer_witness :
    (∃ t, HoverEvent.mk t HoverKind.enter ∈ [HoverEvent.mk 0 HoverKind.enter] ∧
      t + 500 ≤ 777) ∧
    runHover "cv.pdf" previewClosed
      [⟨0, HoverKind.enter⟩, ⟨100, HoverKind.leave⟩] 1000 = previewClosed :=
  ⟨(preview_hover_timer "cv.pdf").1 [⟨0, HoverKind.enter⟩] 777 (by decide) (by decide),
   (preview_hover_timer "cv.pdf").2.2 0 100 1000 (by decide)⟩

/-- Claim C6: for every element that has no matching tooltip child, the
tooltip-showing operations (SkillsManager.showSkillValue,
TooltipManager.showTooltip, TooltipManager.hideTooltip) return without
throwing — they are total functions of their inputs — and without
mutating any DOM state: all state is returned unchanged. -/
theorem missing_tooltip_noop :
    (∀ el : ControlNode, el.tooltip = none → showSkillValue el = (el, false)) ∧
    (∀ (el : Option ControlNode) (tr : DomRect) (vw vh : Int),
      showTooltip none el tr vw vh = (none, el)) ∧
    (∀ (t : Option TooltipNode) (tr : DomRect) (vw vh : Int),
      showTooltip t none tr vw vh = (t, none)) ∧
    hideTooltip none = none := by
  refine ⟨?_, ?_, ?_, rfl⟩
  · intro el h
    unfold showSkillValue
    rw [h]
  · intro el tr vw vh
    cases el <;> rfl
  · intro t tr vw vh
    cases t <;> rfl

/-- Witness for C6 at a control with no .control-tooltip child. -/
theorem missing_tooltip_noop_witness :
    bareControl.tooltip = none ∧ showSkillValue bareControl = (bareControl, false) :=
  ⟨rfl, missing_tooltip_noop.1 bareControl rfl⟩

/-- Claim C7: every file written by node build.js (the combined CSS,
combined JS, optimized index.html, copied assets, bio.html, sw.js,
manifest.json) is written under the dist/ directory, and every directory
the build creates (or clears) is the dist/ tree itself. -/
theorem buildWrites_under_dist (assetEntries : List String) (bioPresent : Bool) :
    (∀ p ∈ buildWritePaths assetEntries bioPresent, underDist p = true) ∧
    (∀ p ∈ createdDirs, underDist p = true) := by
  constructor
  · intro p hp
    have h3 : ∀ q ∈ ([cssOutPath, jsOutPath, htmlOutPath] : List FsPath),
        underDist q = true := by decide
    have h4 : ∀ q ∈ ([swOutPath, manifestOutPath] : List FsPath),
        underDist q = true := by decide
    have h5 : underDist bioOutPath = true := by decide
    rcases List.mem_append.mp hp with hp2 | h
    swap
    · exact h4 p h
    rcases List.mem_append.mp hp2 with hp3 | h
    swap
    · cases bioPresent
      · simp at h
      · simp only [if_pos, List.mem_singleton] at h
        subst h
        exact h5
    rcases List.mem_append.mp hp3 with h | h
    · exact h3 p h
    · obtain ⟨f, hf, rfl⟩ := List.mem_map.mp h
      rfl
  · intro p hp
    simp only [createdDirs, List.mem_cons, List.not_mem_nil, or_false] at hp
    rcases hp with h | h | h | h <;> subst h <;> rfl

/-- Witness for C7: a concrete copied asset lands under dist/assets. -/
theorem buildWrites_under_dist_witness :
    ["dist", "assets", "IMG_0930.jpeg"] ∈
      buildWritePaths ["IMG_0930.jpeg", "Etiosa_Raymond_CV.pdf"] true ∧
    underDist ["dist", "assets", "IMG_0930.jpeg"] = true :=
  ⟨by decide,
   (buildWrites_under_dist ["IMG_0930.jpeg", "Etiosa_Raymond_CV.pdf"] true).1
     ["dist", "assets", "IMG_0930.jpeg"] (by decide)⟩

/-- Claim C8: testFunctionality() (one script.js variant, modelled from
the spec) passes exactly when .profile-image and .experience-card exist,
the GitHub link equals the literal profile URL, and a CV download link
carries a download attribute. -/
theorem testFunctionality_checks (page : TestPage) :
    testFunctionality page = true ↔
      (page.profileImagePresent = true ∧ page.experienceCardPresent = true ∧
       (∃ l, page.githubLink = some l ∧ l.href = githubProfileUrl) ∧
       (∃ l, page.cvDownloadLink = some l ∧ l.hasDownloadAttr = true)) := by
  obtain ⟨pImg, eCard, gl, cv⟩ := page
  cases gl with
  | none => simp [testFunctionality]
  | some l1 =>
    cases cv with
    | none => simp [testFunctionality]
    | some l2 => simp [testFunctionality, and_assoc]

end Portfolio
